import Mathlib

/-!
Shallow embedding of the student-enrollment agent
(`src/tools.ts` and the tool-calling loop `callLLM` replicated in the
integration-test harness), together with theorems settling the claims
about it.

Modelling conventions:
* The SQLite store is a `State` record of three row lists (students,
  courses, enrollments); SQL `SELECT ... WHERE` is `List.filter`,
  `INSERT` appends a row, `UPDATE ... WHERE id = x` maps over the rows,
  `DELETE ... WHERE` filters rows out.
* JavaScript numbers holding counts are embedded as `Int`.
* The random student id `"STU-" + ...` and the wall-clock timestamp
  `new Date().toISOString()` are nondeterministic inputs, passed as
  explicit `freshId` / `now` arguments (an `Env` oracle inside the loop).
* `Record<string, string>` tool arguments are embedded as a record of
  the four keys the five tools read.
-/

namespace Enroll

/-- A course row (`Course` in utils): id, name, instructor, capacity,
enrolled_count. -/
structure Course where
  id : String
  name : String
  instructor : String
  capacity : Int
  enrolled_count : Int
deriving DecidableEq, Inhabited

/-- A student row (`Student` in utils). -/
structure Student where
  id : String
  name : String
  email : String
  created_at : String
deriving DecidableEq, Inhabited

/-- An enrollment row: the columns `tools.ts` inserts
(student_id, course_id, enrolled_at). -/
structure Enrollment where
  student_id : String
  course_id : String
  enrolled_at : String
deriving DecidableEq, Inhabited

/-- The relational store backing the SQL tagged-template function. -/
structure State where
  students : List Student
  courses : List Course
  enrollments : List Enrollment
deriving DecidableEq, Inhabited

/-- Insertion step for sorting course rows by id (`ORDER BY id`). -/
def insertById (c : Course) : List Course → List Course
  | [] => [c]
  | d :: ds => if c.id ≤ d.id then c :: d :: ds else d :: insertById c ds

/-- Sorting course rows by id (`ORDER BY id`). -/
def sortById : List Course → List Course
  | [] => []
  | c :: cs => insertById c (sortById cs)

/-- Insertion step for sorting joined rows by enrollment time
(`ORDER BY e.enrolled_at`). -/
def insertByAt (p : Enrollment × Course) :
    List (Enrollment × Course) → List (Enrollment × Course)
  | [] => [p]
  | q :: qs =>
    if p.1.enrolled_at ≤ q.1.enrolled_at then p :: q :: qs
    else q :: insertByAt p qs

/-- Sorting joined rows by enrollment time (`ORDER BY e.enrolled_at`). -/
def sortByAt : List (Enrollment × Course) → List (Enrollment × Course)
  | [] => []
  | p :: ps => insertByAt p (sortByAt ps)

/-- Embedding of `registerStudent` from tools.ts.  `freshId` stands for the random
`"STU-" + ...` id and `now` for `new Date().toISOString()`. -/
def registerStudent (freshId now : String) (s : State)
    (nm email : String) : String × State :=
  let existing := s.students.filter (fun st => st.email = email)
  if existing.length = 0 then
    ("Student registered successfully. Student ID: " ++ freshId ++
       ", Name: " ++ nm ++ ", Email: " ++ email,
     { s with students := s.students ++ [⟨freshId, nm, email, now⟩] })
  else
    ("Student already registered with email " ++ email ++
       ". Student ID: " ++ (existing.headD default).id, s)

/-- Embedding of `listCourses` from tools.ts (read-only). -/
def listCourses (s : State) : String :=
  let courses := sortById s.courses
  if courses.length = 0 then "No courses are currently available."
  else
    "Available courses:\n" ++
      String.intercalate "\n"
        (courses.map (fun c =>
          "- " ++ c.id ++ ": " ++ c.name ++ " (Instructor: " ++
            c.instructor ++ ", Enrolled: " ++ toString c.enrolled_count ++
            "/" ++ toString c.capacity ++ ")"))

/-- Embedding of `enrollStudent` from tools.ts: student-exists, course-exists,
capacity, duplicate checks in that order, then insert + increment. -/
def enrollStudent (now : String) (s : State)
    (student_id course_id : String) : String × State :=
  let students := s.students.filter (fun st => st.id = student_id)
  if students.length = 0 then
    ("Error: Student " ++ student_id ++ " not found. Please register first.",
     s)
  else
    let courses := s.courses.filter (fun c => c.id = course_id)
    if courses.length = 0 then
      ("Error: Course " ++ course_id ++ " not found.", s)
    else
      let course := courses.headD default
      if course.capacity ≤ course.enrolled_count then
        ("Error: Course " ++ course_id ++ " (" ++ course.name ++
           ") is full (" ++ toString course.capacity ++ "/" ++
           toString course.capacity ++ ").", s)
      else
        let existing := s.enrollments.filter
          (fun e => e.student_id = student_id ∧ e.course_id = course_id)
        if existing.length ≠ 0 then
          ("Student " ++ student_id ++ " is already enrolled in " ++
             course_id ++ ".", s)
        else
          ("Successfully enrolled student " ++ student_id ++ " (" ++
             (students.headD default).name ++ ") in " ++ course_id ++
             " (" ++ course.name ++ ").",
           { s with
             enrollments := s.enrollments ++ [⟨student_id, course_id, now⟩],
             courses := s.courses.map (fun c =>
               if c.id = course_id then
                 { c with enrolled_count := c.enrolled_count + 1 }
               else c) })

/-- Embedding of `dropCourse` from tools.ts: delete the enrollment rows of the pair
and decrement the course counter. -/
def dropCourse (s : State) (student_id course_id : String) :
    String × State :=
  let existing := s.enrollments.filter
    (fun e => e.student_id = student_id ∧ e.course_id = course_id)
  if existing.length = 0 then
    ("Student " ++ student_id ++ " is not enrolled in " ++ course_id ++ ".",
     s)
  else
    ("Successfully dropped student " ++ student_id ++ " from course " ++
       course_id ++ ".",
     { s with
       enrollments := s.enrollments.filter
         (fun e => ¬(e.student_id = student_id ∧ e.course_id = course_id)),
       courses := s.courses.map (fun c =>
         if c.id = course_id then
           { c with enrolled_count := c.enrolled_count - 1 }
         else c) })

/-- Embedding of `checkEnrollment` from tools.ts (read-only join + sort). -/
def checkEnrollment (s : State) (student_id : String) : String :=
  let students := s.students.filter (fun st => st.id = student_id)
  if students.length = 0 then
    "Error: Student " ++ student_id ++ " not found."
  else
    let joined := sortByAt
      ((s.enrollments.filter (fun e => e.student_id = student_id)).flatMap
        (fun e =>
          (s.courses.filter (fun c => c.id = e.course_id)).map
            (fun c => (e, c))))
    if joined.length = 0 then
      "Student " ++ (students.headD default).name ++ " (" ++ student_id ++
        ") is not enrolled in any courses."
    else
      "Enrollments for " ++ (students.headD default).name ++ " (" ++
        student_id ++ "):\n" ++
        String.intercalate "\n"
          (joined.map (fun p =>
            "- " ++ p.1.course_id ++ ": " ++ p.2.name ++ " (Instructor: " ++
              p.2.instructor ++ ", Enrolled: " ++ p.1.enrolled_at ++ ")"))

/-- The `Record<string, string>` argument map of a tool call, embedded
as the four keys the tools read (absent keys default to `""`). -/
structure ToolArgs where
  name : String
  email : String
  student_id : String
  course_id : String
deriving DecidableEq, Inhabited

/-- Embedding of `executeTool` from tools.ts: dispatch by tool name. -/
def executeTool (freshId now : String) (s : State)
    (nm : String) (args : ToolArgs) : String × State :=
  if nm = "register_student" then
    registerStudent freshId now s args.name args.email
  else if nm = "list_courses" then (listCourses s, s)
  else if nm = "enroll_student" then
    enrollStudent now s args.student_id args.course_id
  else if nm = "drop_course" then
    dropCourse s args.student_id args.course_id
  else if nm = "check_enrollment" then (checkEnrollment s args.student_id, s)
  else ("Unknown tool: " ++ nm, s)

/-- One conversation turn pushed onto `messages` in the loop. -/
structure Turn where
  role : String
  content : String
deriving DecidableEq, Inhabited

/-- A tool call requested by the model (`{name, arguments}`). -/
structure ToolCall where
  name : String
  arguments : ToolArgs
deriving DecidableEq, Inhabited

/-- A model response (`MockAIResponse`): optional text, optional list of
tool calls. -/
structure AIResponse where
  response : Option String
  tool_calls : Option (List ToolCall)
deriving DecidableEq, Inhabited

/-- The model as an oracle from invocation index to response, and the
per-tool-call nondeterministic inputs (fresh ids and timestamps). -/
structure Env where
  oracle : Nat → AIResponse
  freshId : Nat → String
  now : Nat → String

/-- JS truthiness of `response.response`: absent and `""` are both
falsy. -/
def hasText (r : AIResponse) : Bool := r.response.getD "" ≠ ""

/-- Reading of `response.tool_calls` with the absent case as the empty list
(`tool_calls && tool_calls.length > 0` is then `length > 0`). -/
def toolCallsOf (r : AIResponse) : List ToolCall := r.tool_calls.getD []

/-- Embedding of `JSON.stringify` on the four-key argument record. -/
def argsJson (a : ToolArgs) : String :=
  "\x7b\"name\":\"" ++ a.name ++ "\",\"email\":\"" ++ a.email ++
    "\",\"student_id\":\"" ++ a.student_id ++ "\",\"course_id\":\"" ++
    a.course_id ++ "\"\x7d"

/-- The assistant turn summarizing one round's requested calls. -/
def summaryTurn (tcs : List ToolCall) : Turn :=
  ⟨"assistant",
   String.intercalate "\n"
     (tcs.map (fun tc =>
       "[Calling " ++ tc.name ++ "(" ++ argsJson tc.arguments ++ ")]"))⟩

/-- The `user` turn carrying one tool's result string. -/
def resultTurn (nm res : String) : Turn :=
  ⟨"user", "Tool result for " ++ nm ++ ": " ++ res⟩

/-- Result of dispatching one round's tool calls: the result turns in
order, the final store, and the next fresh-input index. -/
structure DispatchOut where
  turns : List Turn
  state : State
  next : Nat
deriving DecidableEq, Inhabited

/-- The inner `for (const toolCall of response.tool_calls)` loop:
execute every call in order, pushing one result turn each. -/
def execCalls (env : Env) : Nat → State → List ToolCall → DispatchOut
  | k, s, [] => ⟨[], s, k⟩
  | k, s, tc :: rest =>
    let r := executeTool (env.freshId k) (env.now k) s tc.name tc.arguments
    let out := execCalls env (k + 1) r.2 rest
    ⟨resultTurn tc.name r.1 :: out.turns, out.state, out.next⟩

/-- The store reached after dispatching the first `i` calls of a round
(used to state in which store the `i`-th call executes). -/
def stateAt (env : Env) (k : Nat) (s : State) (tcs : List ToolCall)
    (i : Nat) : State :=
  (execCalls env k s (tcs.take i)).state

/-- Result of the whole loop: the reply text, the final `messages`, the
final store, and how many times the model was invoked. -/
structure LLMResult where
  reply : String
  messages : List Turn
  state : State
  calls : Nat
deriving DecidableEq, Inhabited

/-- The round loop of `callLLM`, structured on remaining fuel
(`maxRounds - round`); `n` is the round index, `k` the fresh-input
index. -/
def callLLMGo (env : Env) :
    Nat → Nat → List Turn → Nat → State → LLMResult
  | 0, _, msgs, _, s =>
    ⟨"I completed the requested operations. Is there anything else I can help you with?",
     msgs, s, 0⟩
  | fuel + 1, n, msgs, k, s =>
    let r := env.oracle n
    if 0 < (toolCallsOf r).length then
      let d := execCalls env k s (toolCallsOf r)
      let out := callLLMGo env fuel (n + 1)
        (msgs ++ summaryTurn (toolCallsOf r) :: d.turns) d.next d.state
      { out with calls := out.calls + 1 }
    else if hasText r then ⟨r.response.getD "", msgs, s, 1⟩
    else
      ⟨"I'm sorry, I couldn't process that request. Could you rephrase?",
       msgs, s, 1⟩

/-- The round bound `const maxRounds = 5`. -/
def maxRounds : Nat := 5

/-- Embedding of `callLLM` from the server logic: run up to `maxRounds` rounds. -/
def callLLM (env : Env) (msgs : List Turn) (s : State) : LLMResult :=
  callLLMGo env maxRounds 0 msgs 0 s

/-- The derived consistency rule: each course's `enrolled_count` equals
the number of enrollment rows referencing it. -/
def countConsistent (s : State) : Prop :=
  ∀ c ∈ s.courses,
    c.enrolled_count =
      ((s.enrollments.filter (fun e => e.course_id = c.id)).length : Int)

/-- The data-model invariant on enrollments: at most one row per
(student, course) pair. -/
def atMostOnePerPair (s : State) : Prop :=
  s.enrollments.Pairwise (fun e1 e2 =>
    ¬(e1.student_id = e2.student_id ∧ e1.course_id = e2.course_id))

/-- The store invariant: count consistency together with at most one
enrollment row per pair. -/
def Inv (s : State) : Prop := countConsistent s ∧ atMostOnePerPair s

/-- An enroll or drop operation, for reasoning about arbitrary
sequences of calls. -/
inductive Op where
  | enroll (now sid cid : String)
  | drop (sid cid : String)

/-- Apply one enroll/drop operation to the store. -/
def applyOp (s : State) : Op → State
  | Op.enroll now sid cid => (enrollStudent now s sid cid).2
  | Op.drop sid cid => (dropCourse s sid cid).2

/-- Apply a sequence of enroll/drop operations, left to right. -/
def applySeq (s : State) : List Op → State
  | [] => s
  | op :: ops => applySeq (applyOp s op) ops

/-! ## Theorems about the operation set -/

/-- C10: for every tool name other than the five defined operation
names, `executeTool` returns `"Unknown tool: <name>"` and leaves the
store unchanged — the dispatcher always yields a result string and
never mutates state on an unknown name. -/
theorem executeTool_unknown_tool (freshId now : String) (s : State)
    (nm : String) (args : ToolArgs)
    (h1 : nm ≠ "register_student") (h2 : nm ≠ "list_courses")
    (h3 : nm ≠ "enroll_student") (h4 : nm ≠ "drop_course")
    (h5 : nm ≠ "check_enrollment") :
    executeTool freshId now s nm args = ("Unknown tool: " ++ nm, s) := by
  simp [executeTool, h1, h2, h3, h4, h5]

/-- Witness for C10 at the concrete unknown name "foo". -/
theorem executeTool_unknown_tool_witness :
    executeTool "F" "T" ⟨[], [], []⟩ "foo" default =
      ("Unknown tool: foo", ⟨[], [], []⟩) :=
  executeTool_unknown_tool "F" "T" ⟨[], [], []⟩ "foo" default
    (by decide) (by decide) (by decide) (by decide) (by decide)

/-- C7: when no enrollment row exists for the (student, course) pair,
`dropCourse` returns the "not enrolled" outcome and leaves the entire
state unchanged. -/
theorem drop_not_enrolled_noop (s : State) (sid cid : String)
    (h : s.enrollments.filter
      (fun e => e.student_id = sid ∧ e.course_id = cid) = []) :
    dropCourse s sid cid =
      ("Student " ++ sid ++ " is not enrolled in " ++ cid ++ ".", s) := by
  unfold dropCourse
  rw [h]
  rfl

/-- Witness for C7 at a concrete store with no enrollments. -/
theorem drop_not_enrolled_noop_witness :
    dropCourse ⟨[⟨"S1", "Alice", "a@x", "t0"⟩], [⟨"C1", "Intro", "Dr", 30, 0⟩], []⟩
        "S1" "C1" =
      ("Student S1 is not enrolled in C1.",
       ⟨[⟨"S1", "Alice", "a@x", "t0"⟩], [⟨"C1", "Intro", "Dr", 30, 0⟩], []⟩) :=
  drop_not_enrolled_noop _ "S1" "C1" (by decide)

/-- C9: `enrollStudent` checks student existence first and course
existence second: a missing student yields the "student not found"
outcome regardless of the course argument, and an existing student with
a missing course yields the "course not found" outcome — in both cases
exactly that error pair, never the "full" or "already enrolled"
outcome, and the state is returned unchanged. -/
theorem enroll_check_order :
    (∀ (now : String) (s : State) (sid cid : String),
      s.students.filter (fun st => st.id = sid) = [] →
      enrollStudent now s sid cid =
        ("Error: Student " ++ sid ++ " not found. Please register first.", s))
    ∧ (∀ (now : String) (s : State) (sid cid : String),
      s.students.filter (fun st => st.id = sid) ≠ [] →
      s.courses.filter (fun c => c.id = cid) = [] →
      enrollStudent now s sid cid =
        ("Error: Course " ++ cid ++ " not found.", s)) := by
  constructor
  · intro now s sid cid h
    simp [enrollStudent, h]
  · intro now s sid cid h1 h2
    simp [enrollStudent, List.length_eq_zero, h1, h2]

/-- Witness for C9: a store with one student and one course, probed
with a missing student and then with a missing course. -/
theorem enroll_check_order_witness :
    enrollStudent "t" ⟨[⟨"S1", "Alice", "a@x", "t0"⟩], [⟨"C1", "Intro", "Dr", 30, 0⟩], []⟩
        "GHOST" "C1" =
      ("Error: Student GHOST not found. Please register first.",
       ⟨[⟨"S1", "Alice", "a@x", "t0"⟩], [⟨"C1", "Intro", "Dr", 30, 0⟩], []⟩)
    ∧ enrollStudent "t" ⟨[⟨"S1", "Alice", "a@x", "t0"⟩], [⟨"C1", "Intro", "Dr", 30, 0⟩], []⟩
        "S1" "FAKE999" =
      ("Error: Course FAKE999 not found.",
       ⟨[⟨"S1", "Alice", "a@x", "t0"⟩], [⟨"C1", "Intro", "Dr", 30, 0⟩], []⟩) :=
  ⟨enroll_check_order.1 "t" _ "GHOST" "C1" (by decide),
   enroll_check_order.2 "t" _ "S1" "FAKE999" (by decide) (by decide)⟩

/-- C4: when student and course exist and the course's enrolled count
equals its capacity, `enrollStudent` returns the "full" outcome and
leaves the entire state unchanged. -/
theorem enroll_full_rejected (now : String) (s : State) (sid cid : String)
    (st : Student) (sts : List Student) (c : Course) (cs : List Course)
    (h1 : s.students.filter (fun x => x.id = sid) = st :: sts)
    (h2 : s.courses.filter (fun x => x.id = cid) = c :: cs)
    (h3 : c.enrolled_count = c.capacity) :
    enrollStudent now s sid cid =
      ("Error: Course " ++ cid ++ " (" ++ c.name ++ ") is full (" ++
         toString c.capacity ++ "/" ++ toString c.capacity ++ ").", s) := by
  simp [enrollStudent, h1, h2, h3]

/-- Witness for C4 at a course whose count equals its capacity. -/
theorem enroll_full_rejected_witness :
    enrollStudent "t" ⟨[⟨"S1", "Alice", "a@x", "t0"⟩], [⟨"C1", "Intro", "Dr", 2, 2⟩], []⟩
        "S1" "C1" =
      ("Error: Course C1 (Intro) is full (2/2).",
       ⟨[⟨"S1", "Alice", "a@x", "t0"⟩], [⟨"C1", "Intro", "Dr", 2, 2⟩], []⟩) :=
  enroll_full_rejected "t" _ "S1" "C1" ⟨"S1", "Alice", "a@x", "t0"⟩ []
    ⟨"C1", "Intro", "Dr", 2, 2⟩ [] (by decide) (by decide) (by decide)

/-- C6: registering twice with the same email succeeds once with the
generated id, makes the second call report "already registered" with
that same id while performing no insert, and leaves exactly one student
row carrying the email. -/
theorem register_same_email_idempotent (id1 id2 now1 now2 nm1 nm2 email : String)
    (s : State)
    (h : s.students.filter (fun st => st.email = email) = []) :
    registerStudent id1 now1 s nm1 email =
      ("Student registered successfully. Student ID: " ++ id1 ++
         ", Name: " ++ nm1 ++ ", Email: " ++ email,
       { s with students := s.students ++ [⟨id1, nm1, email, now1⟩] })
    ∧ registerStudent id2 now2 (registerStudent id1 now1 s nm1 email).2 nm2 email =
      ("Student already registered with email " ++ email ++
         ". Student ID: " ++ id1,
       (registerStudent id1 now1 s nm1 email).2)
    ∧ ((registerStudent id1 now1 s nm1 email).2.students.filter
        (fun st => st.email = email)).length = 1 := by
  have hfirst : registerStudent id1 now1 s nm1 email =
      ("Student registered successfully. Student ID: " ++ id1 ++
         ", Name: " ++ nm1 ++ ", Email: " ++ email,
       { s with students := s.students ++ [⟨id1, nm1, email, now1⟩] }) := by
    simp [registerStudent, h]
  refine ⟨hfirst, ?_, ?_⟩
  · rw [hfirst]
    simp [registerStudent, List.filter_append, h]
  · rw [hfirst]
    simp [List.filter_append, h]

/-- Witness for C6 starting from an empty store. -/
theorem register_same_email_idempotent_witness :
    registerStudent "STU-A" "t0" ⟨[], [], []⟩ "Alice" "a@x" =
      ("Student registered successfully. Student ID: STU-A, Name: Alice, Email: a@x",
       ⟨[⟨"STU-A", "Alice", "a@x", "t0"⟩], [], []⟩)
    ∧ registerStudent "STU-B" "t1"
        (registerStudent "STU-A" "t0" ⟨[], [], []⟩ "Alice" "a@x").2 "Alice" "a@x" =
      ("Student already registered with email a@x. Student ID: STU-A",
       (registerStudent "STU-A" "t0" ⟨[], [], []⟩ "Alice" "a@x").2)
    ∧ ((registerStudent "STU-A" "t0" ⟨[], [], []⟩ "Alice" "a@x").2.students.filter
        (fun st => st.email = "a@x")).length = 1 :=
  register_same_email_idempotent "STU-A" "STU-B" "t0" "t1" "Alice" "Alice"
    "a@x" ⟨[], [], []⟩ (by decide)

/-! ## Theorems about the orchestrator loop -/

/-- The loop invokes the model at most once per unit of fuel. -/
theorem callLLMGo_calls_le (env : Env) :
    ∀ (fuel n : Nat) (msgs : List Turn) (k : Nat) (s : State),
      (callLLMGo env fuel n msgs k s).calls ≤ fuel := by
  intro fuel
  induction fuel with
  | zero => intro n msgs k s; simp [callLLMGo]
  | succ f ih =>
    intro n msgs k s
    simp only [callLLMGo]
    by_cases hc : 0 < (toolCallsOf (env.oracle n)).length
    · simp only [if_pos hc]
      exact Nat.succ_le_succ (ih _ _ _ _)
    · simp only [if_neg hc]
      by_cases ht : hasText (env.oracle n) <;> simp [ht]

/-- If every round in the remaining window requests tool calls, the
loop exhausts its fuel and returns the completion fallback. -/
theorem callLLMGo_all_tool_rounds (env : Env) :
    ∀ (fuel n : Nat) (msgs : List Turn) (k : Nat) (s : State),
      (∀ i, n ≤ i → i < n + fuel → 0 < (toolCallsOf (env.oracle i)).length) →
      (callLLMGo env fuel n msgs k s).reply =
        "I completed the requested operations. Is there anything else I can help you with?" := by
  intro fuel
  induction fuel with
  | zero => intro n msgs k s _; rfl
  | succ f ih =>
    intro n msgs k s hall
    have hc : 0 < (toolCallsOf (env.oracle n)).length :=
      hall n le_rfl (by omega)
    simp only [callLLMGo, if_pos hc]
    exact ih (n + 1) _ _ _ (fun i h1 h2 => hall i (by omega) (by omega))

/-- C2: the loop invokes the model at most 5 times, and when every
response up to the 5th requests further invocations it terminates with
the static completion fallback string. -/
theorem callLLM_at_most_five_rounds (env : Env) (msgs : List Turn) (s : State) :
    (callLLM env msgs s).calls ≤ 5
    ∧ ((∀ i, i < 5 → 0 < (toolCallsOf (env.oracle i)).length) →
       (callLLM env msgs s).reply =
         "I completed the requested operations. Is there anything else I can help you with?") := by
  constructor
  · exact callLLMGo_calls_le env 5 0 msgs 0 s
  · intro h
    exact callLLMGo_all_tool_rounds env 5 0 msgs 0 s
      (fun i _ h2 => h i (by omega))

/-- Witness for C2: an oracle that always requests one tool call. -/
theorem callLLM_at_most_five_rounds_witness :
    (callLLM ⟨fun _ => ⟨none, some [⟨"list_courses", default⟩]⟩,
        fun _ => "F", fun _ => "T"⟩ [] ⟨[], [], []⟩).calls ≤ 5
    ∧ (callLLM ⟨fun _ => ⟨none, some [⟨"list_courses", default⟩]⟩,
        fun _ => "F", fun _ => "T"⟩ [] ⟨[], [], []⟩).reply =
      "I completed the requested operations. Is there anything else I can help you with?" :=
  ⟨(callLLM_at_most_five_rounds _ [] _).1,
   (callLLM_at_most_five_rounds _ [] _).2 (fun i _ => by simp [toolCallsOf])⟩

/-- C8: in any round with fuel left, a model response with no text and
no tool calls makes the loop terminate at once within that round — a
single further model invocation — returning the static apologetic
fallback, with messages and store untouched; in particular this holds
for `callLLM` when round 0 is malformed. -/
theorem malformed_response_fallback (env : Env) :
    (∀ (fuel n : Nat) (msgs : List Turn) (k : Nat) (s : State),
      toolCallsOf (env.oracle n) = [] → hasText (env.oracle n) = false →
      callLLMGo env (fuel + 1) n msgs k s =
        ⟨"I'm sorry, I couldn't process that request. Could you rephrase?",
         msgs, s, 1⟩)
    ∧ (∀ (msgs : List Turn) (s : State),
      toolCallsOf (env.oracle 0) = [] → hasText (env.oracle 0) = false →
      callLLM env msgs s =
        ⟨"I'm sorry, I couldn't process that request. Could you rephrase?",
         msgs, s, 1⟩) := by
  constructor
  · intro fuel n msgs k s h1 h2
    simp [callLLMGo, h1, h2]
  · intro msgs s h1 h2
    show callLLMGo env (4 + 1) 0 msgs 0 s = _
    simp [callLLMGo, h1, h2]

/-- Witness for C8: the empty model response arriving at round 3 with
fuel remaining. -/
theorem malformed_response_fallback_witness :
    callLLMGo ⟨fun _ => ⟨none, none⟩, fun _ => "F", fun _ => "T"⟩
        (2 + 1) 3 [] 0 ⟨[], [], []⟩ =
      ⟨"I'm sorry, I couldn't process that request. Could you rephrase?",
       [], ⟨[], [], []⟩, 1⟩ :=
  (malformed_response_fallback _).1 2 3 [] 0 _ rfl rfl

/-- Dispatching a round yields exactly one result turn per requested
call, regardless of the individual results. -/
theorem execCalls_turns_length (env : Env) :
    ∀ (tcs : List ToolCall) (k : Nat) (s : State),
      (execCalls env k s tcs).turns.length = tcs.length := by
  intro tcs
  induction tcs with
  | nil => intro k s; rfl
  | cons tc rest ih => intro k s; simp [execCalls, ih]

/-- The `i`-th result turn of a round is the result of `executeTool` on
the `i`-th requested call, run in the store left by the first `i`
calls. -/
theorem execCalls_turns_getD (env : Env) :
    ∀ (tcs : List ToolCall) (k : Nat) (s : State) (i : Nat), i < tcs.length →
      (execCalls env k s tcs).turns.getD i default =
        resultTurn (tcs.getD i default).name
          (executeTool (env.freshId (k + i)) (env.now (k + i))
            (stateAt env k s tcs i)
            (tcs.getD i default).name (tcs.getD i default).arguments).1 := by
  intro tcs
  induction tcs with
  | nil => intro k s i h; simp at h
  | cons tc rest ih =>
    intro k s i h
    cases i with
    | zero =>
      simp [execCalls, stateAt]
    | succ j =>
      have hj : j < rest.length := by simpa using h
      have hrec := ih (k + 1)
        (executeTool (env.freshId k) (env.now k) s tc.name tc.arguments).2 j hj
      simp only [execCalls, stateAt, List.take_succ_cons, List.getD_cons_succ]
      simp only [stateAt] at hrec
      rw [show k + (j + 1) = k + 1 + j by omega]
      exact hrec

/-- C3: on a round whose response requests a non-empty list of calls,
the loop appends one assistant summary turn and then, via `execCalls`,
one result turn per call — in the model's order, each tagged with the
producing tool's name, each produced by `executeTool` in the store left
by the preceding calls of the round — before recursing into the next
round; every call is dispatched whatever the earlier results were. -/
theorem round_dispatch_order (env : Env) (fuel n : Nat) (msgs : List Turn)
    (k : Nat) (s : State)
    (h : 0 < (toolCallsOf (env.oracle n)).length) :
    (callLLMGo env (fuel + 1) n msgs k s =
      { callLLMGo env fuel (n + 1)
          (msgs ++ summaryTurn (toolCallsOf (env.oracle n)) ::
            (execCalls env k s (toolCallsOf (env.oracle n))).turns)
          (execCalls env k s (toolCallsOf (env.oracle n))).next
          (execCalls env k s (toolCallsOf (env.oracle n))).state with
        calls := (callLLMGo env fuel (n + 1)
          (msgs ++ summaryTurn (toolCallsOf (env.oracle n)) ::
            (execCalls env k s (toolCallsOf (env.oracle n))).turns)
          (execCalls env k s (toolCallsOf (env.oracle n))).next
          (execCalls env k s (toolCallsOf (env.oracle n))).state).calls + 1 })
    ∧ (execCalls env k s (toolCallsOf (env.oracle n))).turns.length =
        (toolCallsOf (env.oracle n)).length
    ∧ (∀ i, i < (toolCallsOf (env.oracle n)).length →
        (execCalls env k s (toolCallsOf (env.oracle n))).turns.getD i default =
          resultTurn ((toolCallsOf (env.oracle n)).getD i default).name
            (executeTool (env.freshId (k + i)) (env.now (k + i))
              (stateAt env k s (toolCallsOf (env.oracle n)) i)
              ((toolCallsOf (env.oracle n)).getD i default).name
              ((toolCallsOf (env.oracle n)).getD i default).arguments).1) := by
  refine ⟨?_, execCalls_turns_length env _ k s,
    fun i hi => execCalls_turns_getD env _ k s i hi⟩
  simp only [callLLMGo, if_pos h]

/-- Witness for C3: a round requesting two calls (enroll then drop)
produces exactly two result turns. -/
theorem round_dispatch_order_witness :
    (execCalls
        ⟨fun _ => ⟨none, some [⟨"enroll_student", ⟨"", "", "S1", "C1"⟩⟩,
            ⟨"drop_course", ⟨"", "", "S1", "C1"⟩⟩]⟩, fun _ => "F", fun _ => "T"⟩
        0 ⟨[⟨"S1", "Alice", "a@x", "t0"⟩], [⟨"C1", "Intro", "Dr", 30, 0⟩], []⟩
        (toolCallsOf
          ((⟨fun _ => ⟨none, some [⟨"enroll_student", ⟨"", "", "S1", "C1"⟩⟩,
              ⟨"drop_course", ⟨"", "", "S1", "C1"⟩⟩]⟩, fun _ => "F",
            fun _ => "T"⟩ : Env).oracle 0))).turns.length =
    (toolCallsOf
      ((⟨fun _ => ⟨none, some [⟨"enroll_student", ⟨"", "", "S1", "C1"⟩⟩,
          ⟨"drop_course", ⟨"", "", "S1", "C1"⟩⟩]⟩, fun _ => "F",
        fun _ => "T"⟩ : Env).oracle 0)).length :=
  (round_dispatch_order
      ⟨fun _ => ⟨none, some [⟨"enroll_student", ⟨"", "", "S1", "C1"⟩⟩,
          ⟨"drop_course", ⟨"", "", "S1", "C1"⟩⟩]⟩, fun _ => "F", fun _ => "T"⟩
      0 0 [] 0 ⟨[⟨"S1", "Alice", "a@x", "t0"⟩], [⟨"C1", "Intro", "Dr", 30, 0⟩], []⟩
      (by decide)).2.1

/-- Filtering course rows by id commutes with an id-preserving row
update. -/
theorem filter_map_of_id_eq (f : Course → Course)
    (hf : ∀ c, (f c).id = c.id) (p : String) :
    ∀ l : List Course,
      (l.map f).filter (fun x => x.id = p) =
        (l.filter (fun x => x.id = p)).map f := by
  intro l
  induction l with
  | nil => rfl
  | cons a l ih =>
    by_cases h : a.id = p
    · simp [List.filter_cons, hf, h, ih]
    · simp [List.filter_cons, hf, h, ih]

/-- Counterexample to C5 as stated: with capacity 1, the first
enrollment succeeds and fills the course, so the second call with the
same pair reports "full" — the capacity check runs before the
duplicate check — not "already enrolled". -/
theorem enroll_twice_counterexample :
    (enrollStudent "t1"
        ⟨[⟨"S1", "Alice", "a@x", "t0"⟩], [⟨"C1", "Intro", "Dr", 1, 0⟩], []⟩
        "S1" "C1").1 =
      "Successfully enrolled student S1 (Alice) in C1 (Intro)."
    ∧ (enrollStudent "t2"
        (enrollStudent "t1"
          ⟨[⟨"S1", "Alice", "a@x", "t0"⟩], [⟨"C1", "Intro", "Dr", 1, 0⟩], []⟩
          "S1" "C1").2 "S1" "C1").1 =
      "Error: Course C1 (Intro) is full (1/1)."
    ∧ (enrollStudent "t2"
        (enrollStudent "t1"
          ⟨[⟨"S1", "Alice", "a@x", "t0"⟩], [⟨"C1", "Intro", "Dr", 1, 0⟩], []⟩
          "S1" "C1").2 "S1" "C1").1 ≠
      "Student S1 is already enrolled in C1." := by
  refine ⟨rfl, rfl, ?_⟩
  decide

/-- C5 amended: after a first successful enrollment of the pair, the
second call leaves the state unchanged (so the count keeps its
post-success value and no second row is created, the pair's rows having
length 1), and it reports "already enrolled" provided the course is not
at capacity after the first call — at the capacity boundary the code
reports "full" instead, because the capacity check precedes the
duplicate check. -/
theorem enroll_twice_amended (now1 now2 : String) (s : State)
    (sid cid : String) (st : Student) (sts : List Student)
    (c : Course) (cs : List Course)
    (h1 : s.students.filter (fun x => x.id = sid) = st :: sts)
    (h2 : s.courses.filter (fun x => x.id = cid) = c :: cs)
    (h3 : c.enrolled_count < c.capacity)
    (h4 : s.enrollments.filter
      (fun e => e.student_id = sid ∧ e.course_id = cid) = []) :
    ((enrollStudent now2 (enrollStudent now1 s sid cid).2 sid cid).2 =
      (enrollStudent now1 s sid cid).2)
    ∧ ((enrollStudent now1 s sid cid).2.enrollments.filter
        (fun e => e.student_id = sid ∧ e.course_id = cid)).length = 1
    ∧ (c.enrolled_count + 1 < c.capacity →
        (enrollStudent now2 (enrollStudent now1 s sid cid).2 sid cid).1 =
          "Student " ++ sid ++ " is already enrolled in " ++ cid ++ ".") := by
  have hc_mem : c ∈ s.courses.filter (fun x => x.id = cid) := by
    rw [h2]; exact List.mem_cons_self _ _
  have hcid : c.id = cid := by simpa using (List.mem_filter.mp hc_mem).2
  have hf : ∀ x : Course,
      ((fun d => if d.id = cid then
          { d with enrolled_count := d.enrolled_count + 1 } else d) x).id =
        x.id := by
    intro x; by_cases h : x.id = cid <;> simp [h]
  have hs1 : enrollStudent now1 s sid cid =
      ("Successfully enrolled student " ++ sid ++ " (" ++ st.name ++
         ") in " ++ cid ++ " (" ++ c.name ++ ").",
       { s with
         enrollments := s.enrollments ++ [⟨sid, cid, now1⟩],
         courses := s.courses.map (fun d =>
           if d.id = cid then
             { d with enrolled_count := d.enrolled_count + 1 }
           else d) }) := by
    unfold enrollStudent
    rw [h1, h2, h4]
    simp [not_le.mpr h3]
  rw [hs1]
  have hstud : ({ s with
      enrollments := s.enrollments ++ [⟨sid, cid, now1⟩],
      courses := s.courses.map (fun d =>
        if d.id = cid then
          { d with enrolled_count := d.enrolled_count + 1 }
        else d) } : State).students.filter (fun x => x.id = sid) =
      st :: sts := h1
  have hcrs : ({ s with
      enrollments := s.enrollments ++ [⟨sid, cid, now1⟩],
      courses := s.courses.map (fun d =>
        if d.id = cid then
          { d with enrolled_count := d.enrolled_count + 1 }
        else d) } : State).courses.filter (fun x => x.id = cid) =
      { c with enrolled_count := c.enrolled_count + 1 } ::
        cs.map (fun d =>
          if d.id = cid then
            { d with enrolled_count := d.enrolled_count + 1 }
          else d) := by
    show (s.courses.map _).filter _ = _
    rw [filter_map_of_id_eq _ hf cid s.courses, h2]
    simp [hcid]
  have hexist : ({ s with
      enrollments := s.enrollments ++ [⟨sid, cid, now1⟩],
      courses := s.courses.map (fun d =>
        if d.id = cid then
          { d with enrolled_count := d.enrolled_count + 1 }
        else d) } : State).enrollments.filter
        (fun e => e.student_id = sid ∧ e.course_id = cid) =
      [⟨sid, cid, now1⟩] := by
    show (s.enrollments ++ [(⟨sid, cid, now1⟩ : Enrollment)]).filter
        (fun e => e.student_id = sid ∧ e.course_id = cid) =
      [(⟨sid, cid, now1⟩ : Enrollment)]
    rw [List.filter_append, h4]
    simp
  refine ⟨?_, ?_, ?_⟩
  · unfold enrollStudent
    rw [hstud, hcrs, hexist]
    by_cases hfull : c.capacity ≤ c.enrolled_count + 1 <;> simp [hfull]
  · rw [hexist]
    rfl
  · intro h5
    unfold enrollStudent
    rw [hstud, hcrs, hexist]
    simp [not_le.mpr h5]

/-- Witness for the amended C5 at a course with spare capacity. -/
theorem enroll_twice_amended_witness :
    ((enrollStudent "t2"
        (enrollStudent "t1"
          ⟨[⟨"S1", "Alice", "a@x", "t0"⟩], [⟨"C1", "Intro", "Dr", 30, 0⟩], []⟩
          "S1" "C1").2 "S1" "C1").2 =
      (enrollStudent "t1"
        ⟨[⟨"S1", "Alice", "a@x", "t0"⟩], [⟨"C1", "Intro", "Dr", 30, 0⟩], []⟩
        "S1" "C1").2)
    ∧ ((enrollStudent "t1"
          ⟨[⟨"S1", "Alice", "a@x", "t0"⟩], [⟨"C1", "Intro", "Dr", 30, 0⟩], []⟩
          "S1" "C1").2.enrollments.filter
        (fun e => e.student_id = "S1" ∧ e.course_id = "C1")).length = 1
    ∧ ((0 : Int) + 1 < 30 →
        (enrollStudent "t2"
          (enrollStudent "t1"
            ⟨[⟨"S1", "Alice", "a@x", "t0"⟩], [⟨"C1", "Intro", "Dr", 30, 0⟩], []⟩
            "S1" "C1").2 "S1" "C1").1 =
          "Student S1 is already enrolled in C1.") :=
  enroll_twice_amended "t1" "t2"
    ⟨[⟨"S1", "Alice", "a@x", "t0"⟩], [⟨"C1", "Intro", "Dr", 30, 0⟩], []⟩
    "S1" "C1" ⟨"S1", "Alice", "a@x", "t0"⟩ [] ⟨"C1", "Intro", "Dr", 30, 0⟩ []
    (by decide) (by decide) (by decide) (by decide)

/-- Splitting a filtered length along a second predicate. -/
theorem length_filter_split {α : Type} (p q : α → Bool) :
    ∀ l : List α,
      (l.filter q).length =
        (l.filter (fun a => q a && p a)).length +
        (l.filter (fun a => q a && !p a)).length := by
  intro l
  induction l with
  | nil => rfl
  | cons a l ih =>
    by_cases hp : p a = true <;> by_cases hq : q a = true <;>
      simp [List.filter_cons, hp, hq, ih] <;> omega

/-- Under the at-most-one-per-pair invariant, each pair's enrollment
rows number at most one. -/
theorem length_filter_pair_le_one (sid cid : String) :
    ∀ es : List Enrollment,
      es.Pairwise (fun e1 e2 =>
        ¬(e1.student_id = e2.student_id ∧ e1.course_id = e2.course_id)) →
      (es.filter
        (fun e => e.student_id = sid ∧ e.course_id = cid)).length ≤ 1 := by
  intro es
  induction es with
  | nil => intro h; simp
  | cons e es ih =>
    intro hp
    rw [List.pairwise_cons] at hp
    obtain ⟨he, hes⟩ := hp
    by_cases hme : e.student_id = sid ∧ e.course_id = cid
    · have hnil : es.filter
          (fun x => x.student_id = sid ∧ x.course_id = cid) = [] := by
        rw [List.filter_eq_nil_iff]
        intro x hx
        simp only [decide_eq_true_eq]
        intro hxm
        exact he x hx ⟨hme.1.trans hxm.1.symm, hme.2.trans hxm.2.symm⟩
      simp only [List.filter_cons, decide_eq_true_eq, if_pos hme, hnil,
        List.length_cons, List.length_nil]
      omega
    · simp only [List.filter_cons, decide_eq_true_eq, if_neg hme]
      exact ih hes

/-- Case analysis: `enrollStudent` either leaves the store untouched or — exactly when
no row for the pair exists and the other checks pass — appends the one
new row and increments the matching course rows, in the same step. -/
theorem enroll_state_cases (now : String) (s : State) (sid cid : String) :
    (enrollStudent now s sid cid).2 = s
    ∨ (s.enrollments.filter
        (fun e => e.student_id = sid ∧ e.course_id = cid) = []
       ∧ (enrollStudent now s sid cid).2 =
         { s with
           enrollments := s.enrollments ++ [⟨sid, cid, now⟩],
           courses := s.courses.map (fun c =>
             if c.id = cid then
               { c with enrolled_count := c.enrolled_count + 1 }
             else c) }) := by
  unfold enrollStudent
  dsimp only
  split_ifs with h1 h2 h3 h4
  · left; rfl
  · left; rfl
  · left; rfl
  · left; rfl
  · right
    exact ⟨List.length_eq_zero.mp (not_not.mp h4), rfl⟩

/-- Case analysis: `dropCourse` either leaves the store untouched or — exactly when a
row for the pair exists — removes the pair's rows and decrements the
matching course rows, in the same step. -/
theorem drop_state_cases (s : State) (sid cid : String) :
    (dropCourse s sid cid).2 = s
    ∨ ((s.enrollments.filter
          (fun e => e.student_id = sid ∧ e.course_id = cid)).length ≠ 0
       ∧ (dropCourse s sid cid).2 =
         { s with
           enrollments := s.enrollments.filter
             (fun e => ¬(e.student_id = sid ∧ e.course_id = cid)),
           courses := s.courses.map (fun c =>
             if c.id = cid then
               { c with enrolled_count := c.enrolled_count - 1 }
             else c) }) := by
  unfold dropCourse
  dsimp only
  split_ifs with h1
  · left; rfl
  · right
    exact ⟨h1, rfl⟩

/-- The store invariant survives a successful enrollment. -/
theorem Inv_enroll_succ (now : String) (s : State) (sid cid : String)
    (hInv : Inv s)
    (hnew : s.enrollments.filter
      (fun e => e.student_id = sid ∧ e.course_id = cid) = []) :
    Inv { s with
      enrollments := s.enrollments ++ [⟨sid, cid, now⟩],
      courses := s.courses.map (fun c =>
        if c.id = cid then
          { c with enrolled_count := c.enrolled_count + 1 }
        else c) } := by
  obtain ⟨hcount, hpair⟩ := hInv
  refine ⟨?_, ?_⟩
  · intro c' hc'
    simp only [List.mem_map] at hc'
    obtain ⟨c, hc, rfl⟩ := hc'
    have hcc := hcount c hc
    by_cases hid : c.id = cid
    · rw [hid] at hcc
      simp [hid, List.filter_append, hcc]
    · simp [hid, List.filter_append, Ne.symm hid, hcc]
  · show List.Pairwise
      (fun e1 e2 =>
        ¬(e1.student_id = e2.student_id ∧ e1.course_id = e2.course_id))
      (s.enrollments ++ [⟨sid, cid, now⟩])
    rw [List.pairwise_append]
    refine ⟨hpair, ?_, ?_⟩
    · simp
    · intro a ha b hb
      simp only [List.mem_singleton] at hb
      subst hb
      have hmem := List.filter_eq_nil_iff.mp hnew a ha
      simp only [decide_eq_true_eq] at hmem
      simpa using hmem

/-- The store invariant survives a successful drop. -/
theorem Inv_drop_succ (s : State) (sid cid : String)
    (hInv : Inv s)
    (hne : (s.enrollments.filter
      (fun e => e.student_id = sid ∧ e.course_id = cid)).length ≠ 0) :
    Inv { s with
      enrollments := s.enrollments.filter
        (fun e => ¬(e.student_id = sid ∧ e.course_id = cid)),
      courses := s.courses.map (fun c =>
        if c.id = cid then
          { c with enrolled_count := c.enrolled_count - 1 }
        else c) } := by
  obtain ⟨hcount, hpair⟩ := hInv
  have hone : (s.enrollments.filter
      (fun e => e.student_id = sid ∧ e.course_id = cid)).length = 1 := by
    have hle := length_filter_pair_le_one sid cid s.enrollments hpair
    omega
  refine ⟨?_, ?_⟩
  · intro c' hc'
    simp only [List.mem_map] at hc'
    obtain ⟨c, hc, rfl⟩ := hc'
    have hcc := hcount c hc
    by_cases hid : c.id = cid
    · rw [hid] at hcc
      simp only [hid, ite_true]
      rw [List.filter_filter]
      simp only [decide_not]
      have hsplit := length_filter_split
        (fun e : Enrollment => decide (e.student_id = sid ∧ e.course_id = cid))
        (fun e : Enrollment => decide (e.course_id = cid)) s.enrollments
      have hcongr : (s.enrollments.filter
          (fun a : Enrollment => decide (a.course_id = cid) &&
            decide (a.student_id = sid ∧ a.course_id = cid))).length = 1 := by
        have hpt : ∀ x ∈ s.enrollments,
            (decide (x.course_id = cid) &&
              decide (x.student_id = sid ∧ x.course_id = cid)) =
            decide (x.student_id = sid ∧ x.course_id = cid) := by
          intro x hx
          by_cases hx2 : x.student_id = sid ∧ x.course_id = cid
          · simp [hx2, hx2.2]
          · simp [hx2]
        rw [List.filter_congr hpt]
        exact hone
      rw [hcc]
      omega
    · simp only [if_neg hid]
      rw [List.filter_filter]
      simp only [decide_not]
      have hpt : ∀ x ∈ s.enrollments,
          (decide (x.course_id = c.id) &&
            !decide (x.student_id = sid ∧ x.course_id = cid)) =
          decide (x.course_id = c.id) := by
        intro x hx
        by_cases hx2 : x.course_id = c.id
        · have hnp : ¬(x.student_id = sid ∧ x.course_id = cid) :=
            fun h => hid (hx2.symm.trans h.2)
          rw [decide_eq_false hnp]
          simp [hx2]
        · simp [hx2]
      rw [List.filter_congr hpt]
      exact hcc
  · show List.Pairwise
      (fun e1 e2 =>
        ¬(e1.student_id = e2.student_id ∧ e1.course_id = e2.course_id))
      (s.enrollments.filter
        (fun e => ¬(e.student_id = sid ∧ e.course_id = cid)))
    exact List.Pairwise.filter _ hpair

/-- One enroll/drop operation preserves the store invariant. -/
theorem Inv_applyOp (s : State) (op : Op) (h : Inv s) : Inv (applyOp s op) := by
  cases op with
  | enroll now sid cid =>
    show Inv (enrollStudent now s sid cid).2
    rcases enroll_state_cases now s sid cid with heq | ⟨hg, heq⟩
    · rw [heq]; exact h
    · rw [heq]; exact Inv_enroll_succ now s sid cid h hg
  | drop sid cid =>
    show Inv (dropCourse s sid cid).2
    rcases drop_state_cases s sid cid with heq | ⟨hg, heq⟩
    · rw [heq]; exact h
    · rw [heq]; exact Inv_drop_succ s sid cid h hg

/-- Any sequence of enroll/drop operations preserves the store
invariant. -/
theorem Inv_applySeq :
    ∀ (ops : List Op) (s : State), Inv s → Inv (applySeq s ops) := by
  intro ops
  induction ops with
  | nil => intro s h; exact h
  | cons op ops ih => intro s h; exact ih _ (Inv_applyOp s op h)

/-- C1: from any store satisfying the invariant, every sequence of
enroll/drop calls keeps each course's `enrolled_count` equal to the
number of enrollment rows referencing it; `enrollStudent` appends its
row and increments the counter only together on its success path,
`dropCourse` removes the pair's rows and decrements the counter only
together on its success path, and no other dispatched operation touches
courses or enrollments. -/
theorem enrolledCount_consistency :
    (∀ (s : State) (ops : List Op), Inv s → countConsistent (applySeq s ops))
    ∧ (∀ (now : String) (s : State) (sid cid : String),
        (enrollStudent now s sid cid).2 = s
        ∨ ((enrollStudent now s sid cid).2.enrollments =
              s.enrollments ++ [⟨sid, cid, now⟩]
            ∧ (enrollStudent now s sid cid).2.courses =
              s.courses.map (fun c =>
                if c.id = cid then
                  { c with enrolled_count := c.enrolled_count + 1 }
                else c)))
    ∧ (∀ (s : State) (sid cid : String),
        (dropCourse s sid cid).2 = s
        ∨ ((dropCourse s sid cid).2.enrollments =
              s.enrollments.filter
                (fun e => ¬(e.student_id = sid ∧ e.course_id = cid))
            ∧ (dropCourse s sid cid).2.courses =
              s.courses.map (fun c =>
                if c.id = cid then
                  { c with enrolled_count := c.enrolled_count - 1 }
                else c)))
    ∧ (∀ (freshId now : String) (s : State) (nm : String) (args : ToolArgs),
        nm ≠ "enroll_student" → nm ≠ "drop_course" →
        (executeTool freshId now s nm args).2.courses = s.courses
        ∧ (executeTool freshId now s nm args).2.enrollments = s.enrollments) := by
  refine ⟨?_, ?_, ?_, ?_⟩
  · intro s ops h
    exact (Inv_applySeq ops s h).1
  · intro now s sid cid
    rcases enroll_state_cases now s sid cid with heq | ⟨_, heq⟩
    · left; exact heq
    · right; rw [heq]; exact ⟨rfl, rfl⟩
  · intro s sid cid
    rcases drop_state_cases s sid cid with heq | ⟨_, heq⟩
    · left; exact heq
    · right; rw [heq]; exact ⟨rfl, rfl⟩
  · intro freshId now s nm args h1 h2
    unfold executeTool
    split_ifs with hreg hlist hchk
    · unfold registerStudent
      dsimp only
      split_ifs with hlen
      · exact ⟨rfl, rfl⟩
      · exact ⟨rfl, rfl⟩
    · exact ⟨rfl, rfl⟩
    · exact ⟨rfl, rfl⟩
    · exact ⟨rfl, rfl⟩

/-- Witness for C1: the invariant holds in a one-student, one-course
store, and count consistency survives an enroll followed by a drop. -/
theorem enrolledCount_consistency_witness :
    Inv ⟨[⟨"S1", "Alice", "a@x", "t0"⟩], [⟨"C1", "Intro", "Dr", 30, 0⟩], []⟩
    ∧ countConsistent
        (applySeq ⟨[⟨"S1", "Alice", "a@x", "t0"⟩], [⟨"C1", "Intro", "Dr", 30, 0⟩], []⟩
          [Op.enroll "t1" "S1" "C1", Op.drop "S1" "C1"]) := by
  have h : Inv ⟨[⟨"S1", "Alice", "a@x", "t0"⟩], [⟨"C1", "Intro", "Dr", 30, 0⟩], []⟩ := by
    constructor
    · intro c hc
      simp only [List.mem_singleton] at hc
      subst hc
      rfl
    · exact List.Pairwise.nil
  exact ⟨h, enrolledCount_consistency.1 _ _ h⟩

end Enroll
